import Mathlib

/-!
Verification of the anchorpy client-generator sample against its
natural-language specification.

The development shallowly embeds the three source files:
  examples/client-gen/basic_2/accounts/counter.py
  examples/client-gen/tictactoe/errors/__init__.py
  src/anchorpy/clientgen/instructions.py
Bytes are modelled as natural numbers below 256, Python exceptions as an
explicit error type, and fallible operations return Option or Except.
-/

/-! ## Base58 (model of the external base58 codec used by solana PublicKey)

Python `str(PublicKey)` base58-encodes the 32 raw bytes, and
`PublicKey(s)` base58-decodes the string.  The codec below follows the
standard python base58 library: leading zero bytes become leading
alphabet-zero characters, the remaining bytes are interpreted as a
big-endian number and rewritten in base 58. -/

def b58chars : List Char :=
  "123456789ABCDEFGHJKLMNPQRSTUVWXYZabcdefghijkmnopqrstuvwxyz".toList

def b58alph (d : Nat) : Char :=
  b58chars.getD d '?'

def charIndexIn : List Char → Char → Option Nat
  | [], _ => none
  | x :: xs, c =>
    if x == c then some 0 else (charIndexIn xs c).map (fun i => i + 1)

def charsToValsIn (alphabet : List Char) : List Char → Option (List Nat)
  | [] => some []
  | c :: cs =>
    match charIndexIn alphabet c with
    | none => none
    | some v => (charsToValsIn alphabet cs).map (fun vs => v :: vs)

def b58encode (b : List Nat) : List Char :=
  List.replicate (b.length - (b.dropWhile (fun x => x == 0)).length) '1' ++
    ((Nat.digits 58 (Nat.ofDigits 256 b.reverse)).reverse.map b58alph)

def b58decode (s : List Char) : Option (List Nat) :=
  (charsToValsIn b58chars (s.dropWhile (fun c => c == '1'))).map
    (fun ds => List.replicate (s.length - (s.dropWhile (fun c => c == '1')).length) 0 ++
      (Nat.digits 256 (Nat.ofDigits 58 ds.reverse)).reverse)

theorem ofDigits_replicate_zero (b z : Nat) :
    Nat.ofDigits b (List.replicate z 0) = 0 := by
  induction z with
  | zero => rfl
  | succ n ih => simp [List.replicate_succ, Nat.ofDigits_cons, ih]

theorem charIndexIn_b58alph : ∀ d, d < 58 → charIndexIn b58chars (b58alph d) = some d := by
  decide

theorem b58alph_ne_one : ∀ d, d < 58 → d ≠ 0 → b58alph d ≠ '1' := by
  decide

theorem charsToValsIn_map_b58alph (l : List Nat) (h : ∀ d ∈ l, d < 58) :
    charsToValsIn b58chars (l.map b58alph) = some l := by
  induction l with
  | nil => rfl
  | cons d ds ih =>
    simp only [List.map_cons, charsToValsIn]
    rw [charIndexIn_b58alph d (h d (by simp))]
    rw [ih (fun x hx => h x (by simp [hx]))]
    rfl

theorem dropWhile_append_eq (p : α → Bool) (l₁ l₂ : List α)
    (h1 : ∀ a ∈ l₁, p a)
    (h2 : ∀ (h : l₂ ≠ []), ¬ p (l₂.head h) = true) :
    (l₁ ++ l₂).dropWhile p = l₂ := by
  rw [List.dropWhile_append_of_pos h1]
  cases l₂ with
  | nil => rfl
  | cons c cs => exact List.dropWhile_cons_of_neg (h2 (by simp))

/-- Base58 round trip: decoding the encoding of any byte string gives the
byte string back. -/
theorem b58_round_trip (b : List Nat) (hlt : ∀ x ∈ b, x < 256) :
    b58decode (b58encode b) = some b := by
  have hsplit : b.takeWhile (fun x => x == 0) ++ b.dropWhile (fun x => x == 0) = b :=
    List.takeWhile_append_dropWhile (fun x => x == 0) b
  have ht : b.takeWhile (fun x => x == 0) =
      List.replicate (b.takeWhile (fun x => x == 0)).length 0 :=
    List.eq_replicate_length.mpr (fun x hx => by
      have hp := List.mem_takeWhile_imp hx
      simpa using hp)
  have hb : b = List.replicate (b.takeWhile (fun x => x == 0)).length 0 ++
      b.dropWhile (fun x => x == 0) := by
    conv_lhs => rw [← hsplit]
    rw [← ht]
  have hrmem : ∀ x ∈ b.dropWhile (fun x => x == 0), x < 256 := fun x hx =>
    hlt x ((List.dropWhile_sublist (fun x => x == 0)).subset hx)
  have hrhead : ∀ (h : b.dropWhile (fun x => x == 0) ≠ []),
      (b.dropWhile (fun x => x == 0)).head h ≠ 0 := by
    intro h
    have hw := List.head_dropWhile_not (fun x => x == 0) b h
    simpa using hw
  have hzlen : (b.takeWhile (fun x => x == 0)).length =
      b.length - (b.dropWhile (fun x => x == 0)).length := by
    have hlen0 := congrArg List.length hsplit
    simp only [List.length_append] at hlen0
    omega
  have hn : Nat.ofDigits 256 b.reverse =
      Nat.ofDigits 256 (b.dropWhile (fun x => x == 0)).reverse := by
    conv_lhs => rw [hb]
    rw [List.reverse_append, List.reverse_replicate, Nat.ofDigits_append,
      ofDigits_replicate_zero]
    simp
  have hdig : Nat.digits 256 (Nat.ofDigits 256 b.reverse) =
      (b.dropWhile (fun x => x == 0)).reverse := by
    rw [hn]
    apply Nat.digits_ofDigits 256 (by norm_num)
    · intro x hx
      exact hrmem x (List.mem_reverse.mp hx)
    · intro hne
      have hne2 : b.dropWhile (fun x => x == 0) ≠ [] := by
        intro hcon
        simp [hcon] at hne
      rw [List.getLast_reverse]
      exact hrhead hne2
  -- abbreviate the number encoded by the byte string
  set n := Nat.ofDigits 256 b.reverse with hndef
  have hcdhead : ∀ (h : (Nat.digits 58 n).reverse.map b58alph ≠ []),
      ¬ ((fun c => c == '1') (((Nat.digits 58 n).reverse.map b58alph).head h)) = true := by
    intro h
    have hrevne : (Nat.digits 58 n).reverse ≠ [] := by
      intro hcon
      rw [hcon] at h
      simp at h
    have hdigne : Nat.digits 58 n ≠ [] := by
      intro hcon
      rw [hcon] at hrevne
      simp at hrevne
    have hn0 : n ≠ 0 := Nat.digits_ne_nil_iff_ne_zero.mp hdigne
    simp only [List.head_map]
    have hlast : (Nat.digits 58 n).reverse.head (by simpa using hrevne) =
        (Nat.digits 58 n).getLast hdigne := by
      rw [List.getLast_eq_head_reverse]
    have hlast0 : (Nat.digits 58 n).getLast hdigne ≠ 0 := by
      have := Nat.getLast_digit_ne_zero 58 hn0
      simpa using this
    have hlt58 : (Nat.digits 58 n).getLast hdigne < 58 :=
      Nat.digits_lt_base (by norm_num) (List.getLast_mem hdigne)
    rw [hlast]
    simpa using b58alph_ne_one _ hlt58 hlast0
  have hdrop : (List.replicate (b.length - (b.dropWhile (fun x => x == 0)).length) '1' ++
      (Nat.digits 58 n).reverse.map b58alph).dropWhile (fun c => c == '1') =
      (Nat.digits 58 n).reverse.map b58alph := by
    apply dropWhile_append_eq
    · intro a ha
      have := List.eq_of_mem_replicate ha
      simp [this]
    · exact hcdhead
  have hvals : charsToValsIn b58chars ((Nat.digits 58 n).reverse.map b58alph) =
      some ((Nat.digits 58 n).reverse) := by
    apply charsToValsIn_map_b58alph
    intro d hd
    exact Nat.digits_lt_base (by norm_num) (List.mem_reverse.mp hd)
  rw [b58encode, b58decode, hdrop, hvals]
  simp only [Option.map_some']
  have hlen : (List.replicate (b.length - (b.dropWhile (fun x => x == 0)).length) '1' ++
      (Nat.digits 58 n).reverse.map b58alph).length -
        ((Nat.digits 58 n).reverse.map b58alph).length =
      b.length - (b.dropWhile (fun x => x == 0)).length := by
    simp
  rw [hlen, List.reverse_reverse, Nat.ofDigits_digits, hdig, List.reverse_reverse]
  rw [← hzlen, ← hb]

/-! ## PublicKey (model of the external solana-py PublicKey)

A Solana public key is 32 raw bytes.  `str(pk)` is its canonical base58
string and the `PublicKey(s)` constructor base58-decodes `s`, requiring
exactly 32 bytes.  Python's `bytes` type guarantees every element is
below 256; the embedding carries both facts as propositional fields. -/

@[ext]
structure PublicKey where
  bytes : List Nat
  len32 : bytes.length = 32
  bytesLt : ∀ x ∈ bytes, x < 256

def pkToString (pk : PublicKey) : String :=
  String.mk (b58encode pk.bytes)

/-- The length-32 requirement mirrors the `PublicKey` constructor; the
below-256 requirement is Python's `bytes` invariant, which always holds
for base58-decoded data (see `b58decode`), carried here explicitly. -/
def mkPublicKey? (bs : List Nat) : Option PublicKey :=
  if h : bs.length = 32 ∧ ∀ x ∈ bs, x < 256 then some ⟨bs, h.1, h.2⟩ else none

def PublicKey.ofString (s : String) : Option PublicKey :=
  (b58decode s.toList).bind mkPublicKey?

/-! ## Counter account (examples/client-gen/basic_2/accounts/counter.py)

`Counter` has fields `authority : PublicKey` and `count : int` with
layout `CStruct("authority" / BorshPubkey, "count" / borsh.U64)`:
32 raw pubkey bytes followed by an 8-byte little-endian u64. -/

/-- Python exceptions raised by the embedded code. -/
inductive PyError where
  | typeError
  | ownerMismatch
  | invalidDiscriminator
  | streamError
  | b64Error
  | nameError
deriving DecidableEq, Repr

structure Counter where
  authority : PublicKey
  count : Nat

structure CounterJSON where
  authority : String
  count : Nat
deriving DecidableEq, Repr

/-- Modelled from the spec: `ACCOUNT_DISCRIMINATOR_SIZE` comes from
`anchorpy.coder.accounts`, which is not under src/; the spec fixes the
discriminator width at 8 bytes. -/
def ACCOUNT_DISCRIMINATOR_SIZE : Nat := 8

def Counter.discriminator : List Nat :=
  [0xff, 0xb0, 0x04, 0xf5, 0xbc, 0xfd, 0x7c, 0x19]

/-- `Counter.layout.parse`: 32 pubkey bytes, then an 8-byte
little-endian u64.  `construct` raises a stream error when fewer than 40
bytes remain and ignores trailing bytes.  The below-256 side condition
is Python's `bytes` invariant, carried explicitly. -/
def Counter.layout_parse (rest : List Nat) : Option Counter :=
  if h : 40 ≤ rest.length ∧ ∀ x ∈ rest.take 32, x < 256 then
    some { authority := { bytes := rest.take 32
                        , len32 := by
                            have h1 := h.1
                            simp only [List.length_take]
                            omega
                        , bytesLt := h.2 }
         , count := Nat.ofDigits 256 ((rest.drop 32).take 8) }
  else none

/-- `Counter.decode`: raise `AccountInvalidDiscriminator` unless the
first 8 bytes equal the account discriminator, then parse the remainder
via the layout. -/
def Counter.decode (data : List Nat) : Except PyError Counter :=
  if data.take ACCOUNT_DISCRIMINATOR_SIZE = Counter.discriminator then
    match Counter.layout_parse (data.drop ACCOUNT_DISCRIMINATOR_SIZE) with
    | some c => Except.ok c
    | none => Except.error PyError.streamError
  else Except.error PyError.invalidDiscriminator

def Counter.to_json (c : Counter) : CounterJSON :=
  { authority := pkToString c.authority, count := c.count }

def Counter.from_json (j : CounterJSON) : Option Counter :=
  (PublicKey.ofString j.authority).map (fun pk => { authority := pk, count := j.count })

/-! ## base64 and the connection boundary

`get_account_info` returns `{owner, data}` with `data[0]` base64-encoded
(or None when the address holds no account).  `b64decode` models the
external Python stdlib decoder: characters outside the alphabet are
discarded, the padded length must be a multiple of four, six-bit values
are packed big-endian and surplus low bits dropped. -/

def b64chars : List Char :=
  "ABCDEFGHIJKLMNOPQRSTUVWXYZabcdefghijklmnopqrstuvwxyz0123456789+/".toList

def natBEBytes (len n : Nat) : List Nat :=
  (List.range len).map (fun i => n / 256 ^ (len - 1 - i) % 256)

def b64decode (s : String) : Option (List Nat) :=
  let cs := s.toList.filter (fun c => (charIndexIn b64chars c).isSome || c == '=')
  let body := cs.filter (fun c => c != '=')
  if cs.length % 4 == 0 then
    (charsToValsIn b64chars body).map (fun vs =>
      natBEBytes (6 * vs.length / 8)
        (Nat.ofDigits 64 vs.reverse / 2 ^ (6 * vs.length - 8 * (6 * vs.length / 8))))
  else none

structure AccountInfo where
  owner : String
  data : String
deriving DecidableEq, Repr

/-- Modelled from the spec: `PROGRAM_ID` is imported from
`..program_id`, which is not under src/; the spec states it is a fixed
address constant.  Its exact value does not affect any claim. -/
def PROGRAM_ID_STR : String := "Fg6PaFpoGXkYsidMpWTK6W2BeZ7FEfcYkg476zPFsLnS"

/-- `Counter.fetch`: absent account gives None; an owner other than the
program id raises `ValueError("Account does not belong to this
program")` (the spec's `OwnerMismatchError`); otherwise the base64 data
is decoded and handed to `Counter.decode`. -/
def Counter.fetch (conn : PublicKey → Option AccountInfo) (address : PublicKey) :
    Except PyError (Option Counter) :=
  match conn address with
  | none => Except.ok none
  | some info =>
    if info.owner = PROGRAM_ID_STR then
      match b64decode info.data with
      | none => Except.error PyError.b64Error
      | some bytes_data =>
        match Counter.decode bytes_data with
        | Except.ok c => Except.ok (some c)
        | Except.error e => Except.error e
    else Except.error PyError.ownerMismatch

/-- The loop body of `Counter.fetch_multiple`.  When `info` is None the
source appends None to `res` but, lacking a `continue`, falls through to
`info["owner"]`, subscripting None: TypeError propagates and the
partially built result is discarded. -/
def Counter.fetchMultipleLoop :
    List (Option AccountInfo) → List (Option Counter) → Except PyError (List (Option Counter))
  | [], res => Except.ok res
  | info :: rest, res =>
    match info with
    | none => Except.error PyError.typeError
    | some i =>
      if i.owner = PROGRAM_ID_STR then
        match b64decode i.data with
        | none => Except.error PyError.b64Error
        | some bytes_data =>
          match Counter.decode bytes_data with
          | Except.ok c => Counter.fetchMultipleLoop rest (res ++ [some c])
          | Except.error e => Except.error e
      else Except.error PyError.ownerMismatch

/-- `Counter.fetch_multiple`: one batched `get_multiple_accounts`
request, modelled as mapping the connection over the addresses, then the
accumulation loop. -/
def Counter.fetch_multiple (conn : PublicKey → Option AccountInfo)
    (addresses : List PublicKey) : Except PyError (List (Option Counter)) :=
  Counter.fetchMultipleLoop (addresses.map conn) []

/-! ## Concrete sample values used by witnesses -/

def pk0 : PublicKey :=
  { bytes := List.replicate 32 0
  , len32 := by simp
  , bytesLt := by
      intro x hx
      have hx0 := List.eq_of_mem_replicate hx
      omega }

def mismatchInfo : AccountInfo :=
  { owner := "11111111111111111111111111111111", data := "" }

def decodeSample : List Nat :=
  Counter.discriminator ++ List.replicate 32 1 ++ [5, 0, 0, 0, 0, 0, 0, 0]

def counterSample : Counter :=
  { authority := { bytes := List.replicate 32 1
                 , len32 := by simp
                 , bytesLt := by
                     intro x hx
                     have hx1 := List.eq_of_mem_replicate hx
                     omega }
  , count := 5 }

/-! ## tictactoe errors (examples/client-gen/tictactoe/errors/__init__.py) -/

inductive ErrVariant where
  | custom : Nat → String → ErrVariant
  | anchor : Nat → String → ErrVariant
deriving DecidableEq, Repr

/-- Modelled from the spec: `errors/custom.py` is not under src/.  The
spec fixes that custom codes start at 6000, that 6000 maps to the first
custom error variant, and that unknown codes yield absent; the variant
names are illustrative. -/
def customErrorTable : List (Nat × String) :=
  [(6000, "TileOutOfBounds"), (6001, "TileAlreadySet"), (6002, "GameAlreadyOver"),
   (6003, "NotPlayersTurn"), (6004, "GameAlreadyStarted")]

def customFromCode (code : Nat) : Option ErrVariant :=
  (customErrorTable.find? (fun p => p.1 == code)).map
    (fun p => ErrVariant.custom p.1 p.2)

/-- Modelled from the spec: `errors/anchor.py` is not under src/.  A
fixed table of framework error variants, all with codes below 6000;
entries are representative.  Code 5999 is not a recognized framework
code. -/
def anchorErrorTable : List (Nat × String) :=
  [(100, "InstructionMissing"), (101, "InstructionFallbackNotFound"),
   (102, "InstructionDidNotDeserialize"), (103, "InstructionDidNotSerialize"),
   (1000, "IdlInstructionStub"), (1001, "IdlInstructionInvalidProgram"),
   (2000, "ConstraintMut"), (2001, "ConstraintHasOne"), (2002, "ConstraintSigner"),
   (3000, "AccountDiscriminatorAlreadySet"), (3001, "AccountDiscriminatorNotFound"),
   (3002, "AccountDiscriminatorMismatch"), (4100, "DeclaredProgramIdMismatch"),
   (5000, "Deprecated")]

def anchorFromCode (code : Nat) : Option ErrVariant :=
  (anchorErrorTable.find? (fun p => p.1 == code)).map
    (fun p => ErrVariant.anchor p.1 p.2)

/-- Source line 7: `custom.from_code(code) if code >= 6000 else
anchor.from_code(code)`. -/
def from_code (code : Nat) : Option ErrVariant :=
  if 6000 ≤ code then customFromCode code else anchorFromCode code

/-- Python regex `\w` (ASCII portion): letters, digits, underscore. -/
def isWordChar (c : Char) : Bool :=
  c.isAlphanum || c == '_'

def dropLit : List Char → List Char → Option (List Char)
  | [], rest => some rest
  | _ :: _, [] => none
  | p :: ps, c :: cs => if p == c then dropLit ps cs else none

/-- `re.match` of `Program (\w+) failed: custom program error: (\w+)`:
anchored at the start; each `\w+` greedily captures the maximal run of
word characters, after which the following literal segment must match
(no backtracking can succeed because each literal segment begins with a
non-word character). -/
def matchErrorRe (line : String) : Option (String × String) :=
  match dropLit ("Program ".toList) line.toList with
  | none => none
  | some r1 =>
    if (r1.takeWhile isWordChar).length = 0 then none
    else
      match dropLit (" failed: custom program error: ".toList) (r1.dropWhile isWordChar) with
      | none => none
      | some r2 =>
        if (r2.takeWhile isWordChar).length = 0 then none
        else some (String.mk (r1.takeWhile isWordChar), String.mk (r2.takeWhile isWordChar))

/-- The `for logline in error["logs"]` scan: `first_match` ends up
holding the first match, or None after a full non-matching pass. -/
def scanFirst : List String → Option (String × String)
  | [] => none
  | l :: rest =>
    match matchErrorRe l with
    | some m => some m
    | none => scanFirst rest

/-- Modelled from the spec: the tictactoe `program_id.py` is not under
src/; a fixed address constant whose exact value does not affect any
claim (base58 characters are word characters). -/
def TICTACTOE_PROGRAM_ID : String := "HN7cABqLq46Es1jh92dQQisAq662SmxELLLsHHe4YWrH"

/-- `from_tx_error`.  The input is None when the error object carries no
"logs" key, otherwise the list of log lines.  Two slips of the source
are embedded faithfully: with an empty log list the `for` loop never
runs, so `first_match` is unbound and the `if first_match is None` test
raises NameError; and on the matched-id path `int(code_raw(16))` calls
the captured string, raising a TypeError that the `except ValueError`
clause does not catch, so `from_code` is never reached. -/
def from_tx_error (error : Option (List String)) : Except PyError (Option ErrVariant) :=
  match error with
  | none => Except.ok none
  | some logs =>
    if logs.isEmpty then Except.error PyError.nameError
    else
      match scanFirst logs with
      | none => Except.ok none
      | some (program_id_raw, _code_raw) =>
        if program_id_raw = TICTACTOE_PROGRAM_ID then Except.error PyError.typeError
        else Except.ok none

/-! ## Instruction generator (src/anchorpy/clientgen/instructions.py)

The generator emits Python source text; the embedding keeps the emitted
fragments as strings (assignment right-hand sides, parameter lists).
It is parametric in the helpers living in modules outside src/
(`_py_type_from_idl`, `_layout_for_type`, `_field_to_encodable` from
clientgen.common and `_sighash` from coder.common) and in the IDL
argument type grammar `α`: the generator only splices their output into
the emitted text. -/

inductive IdlAccountItem where
  | leaf : String → Bool → Bool → IdlAccountItem
  | group : String → List IdlAccountItem → IdlAccountItem

def pyBool : Bool → String
  | true => "True"
  | false => "False"

/-- The f-string on source lines 77-83: the dict accessor is the
concatenation of `["name"]` segments along the nested path. -/
def renderAccountMeta (names : List String) (is_signer is_mut : Bool) : String :=
  "AccountMeta(pubkey=accounts" ++
    String.join (names.map (fun key => "[\"" ++ key ++ "\"]")) ++
    ", is_signer=" ++ pyBool is_signer ++
    ", is_writable=" ++ pyBool is_mut ++ ")"

mutual

def recurseAccountsItem : IdlAccountItem → List String → List String
  | IdlAccountItem.leaf name s m, nested_names =>
    [renderAccountMeta (nested_names ++ [name]) s m]
  | IdlAccountItem.group name accs, nested_names =>
    recurse_accounts accs (nested_names ++ [name])

/-- `recurse_accounts` (source lines 69-84): one loop iteration per
item, extending with the recursive flattening for groups and appending
a rendered AccountMeta for leaves. -/
def recurse_accounts : List IdlAccountItem → List String → List String
  | [], _ => []
  | acc :: rest, nested_names =>
    recurseAccountsItem acc nested_names ++ recurse_accounts rest nested_names

end

mutual

def dfsLeavesItem : IdlAccountItem → List String → List (List String × Bool × Bool)
  | IdlAccountItem.leaf name s m, path => [(path ++ [name], s, m)]
  | IdlAccountItem.group name accs, path => dfsLeavesList accs (path ++ [name])

/-- Specification-side description of the flattening: the depth-first,
declaration-ordered list of leaves, each with its nested path and
(is_signer, is_writable) flags; groups contribute no entry. -/
def dfsLeavesList : List IdlAccountItem → List String → List (List String × Bool × Bool)
  | [], _ => []
  | acc :: rest, path => dfsLeavesItem acc path ++ dfsLeavesList rest path

end

mutual

def leafCountItem : IdlAccountItem → Nat
  | IdlAccountItem.leaf _ _ _ => 1
  | IdlAccountItem.group _ accs => leafCountList accs

def leafCountList : List IdlAccountItem → Nat
  | [] => 0
  | acc :: rest => leafCountItem acc + leafCountList rest

end

structure PyTypedParam where
  name : String
  ty : String
deriving DecidableEq, Repr

structure PyTypedDict where
  name : String
  params : List PyTypedParam
deriving DecidableEq, Repr

structure PyAssign where
  lhs : String
  rhs : String
deriving DecidableEq, Repr

/-- Model of `pyheck.upper_camel` on snake_case identifiers. -/
def upperCamel (s : String) : String :=
  String.join ((s.splitOn "_").map (fun w => w.capitalize))

def argsInterfaceName (ix_name : String) : String :=
  upperCamel ix_name ++ "Args"

def accountsInterfaceName (ix_name : String) : String :=
  upperCamel ix_name ++ "Accounts"

def renderPyList (elements : List String) : String :=
  "[" ++ String.intercalate ", " elements ++ "]"

def renderStrDict (entries : List (String × String)) : String :=
  "\x7b" ++
    String.intercalate ", " (entries.map (fun e => "\"" ++ e.1 ++ "\": " ++ e.2)) ++
    "\x7d"

structure IdlField (α : Type) where
  name : String
  ty : α

structure IdlInstruction (α : Type) where
  name : String
  args : List (IdlField α)
  accounts : List IdlAccountItem

structure GenIxResult where
  argsInterfaceContainer : List PyTypedDict
  layoutAssignmentContainer : List PyAssign
  fnName : String
  fnParams : List PyTypedParam
  fnBody : List PyAssign
  fnReturn : String

/-- The per-instruction slice of `gen_instructions_code` (source lines
122-174).  When `ix.args` is empty the four containers — including the
`accounts` parameter container — are all emptied, yet the function body
still assigns `encoded_args = layout.build({...})` even though no
`layout` assignment was emitted. -/
def gen_ix {α : Type} (pyTy : α → String) (layoutFor : α → String → String)
    (encodable : IdlField α → String) (sighash : String → String)
    (ix : IdlInstruction α) : GenIxResult :=
  let args_interface_params := ix.args.map (fun arg => PyTypedParam.mk arg.name (pyTy arg.ty))
  let layout_items := ix.args.map (fun arg => layoutFor arg.ty arg.name)
  let encoded_args_entries := ix.args.map (fun arg => (arg.name, encodable arg))
  let aname := accountsInterfaceName ix.name
  let args_interface_container :=
    if ix.args.isEmpty then []
    else [PyTypedDict.mk (argsInterfaceName ix.name) args_interface_params]
  let layout_assignment_container :=
    if ix.args.isEmpty then []
    else [PyAssign.mk "layout" ("borsh.CStruct(" ++ String.intercalate "," layout_items ++ ")")]
  let args_container :=
    if ix.args.isEmpty then [] else [PyTypedParam.mk "args" (argsInterfaceName ix.name)]
  let accounts_container :=
    if ix.args.isEmpty then [] else [PyTypedParam.mk "accounts" aname]
  { argsInterfaceContainer := args_interface_container
  , layoutAssignmentContainer := layout_assignment_container
  , fnName := ix.name
  , fnParams := args_container ++ accounts_container
  , fnBody :=
      [ PyAssign.mk "keys" (renderPyList (recurse_accounts ix.accounts []))
      , PyAssign.mk "identifier" (sighash ix.name)
      , PyAssign.mk "encoded_args" ("layout.build(" ++ renderStrDict encoded_args_entries ++ ")")
      , PyAssign.mk "data" "identifier + encoded_args" ]
  , fnReturn := "TransactionInstruction(data, keys, PROGRAM_ID)" }

/-- The §8 example tree: a top-level leaf and a nested two-leaf group. -/
def examplePoolTree : List IdlAccountItem :=
  [ IdlAccountItem.leaf "poolAuthority" false true
  , IdlAccountItem.group "pool"
      [IdlAccountItem.leaf "vaultA" false true, IdlAccountItem.leaf "vaultB" false true] ]

instance : DecidableEq PublicKey := fun a b =>
  if h : a.bytes = b.bytes then Decidable.isTrue (PublicKey.ext h)
  else Decidable.isFalse (fun he => h (congrArg PublicKey.bytes he))

instance : DecidableEq Counter := fun a b =>
  if h : a.authority = b.authority ∧ a.count = b.count then
    Decidable.isTrue (by
      cases a
      cases b
      rw [Counter.mk.injEq]
      exact h)
  else
    Decidable.isFalse (fun he => h (by
      subst he
      exact ⟨rfl, rfl⟩))

/-! ## Helper lemmas -/

theorem mkPublicKey?_bytes (pk : PublicKey) : mkPublicKey? pk.bytes = some pk := by
  unfold mkPublicKey?
  rw [dif_pos (And.intro pk.len32 pk.bytesLt)]

mutual

theorem recurseItem_eq_dfs : ∀ (acc : IdlAccountItem) (ns : List String),
    recurseAccountsItem acc ns =
      (dfsLeavesItem acc ns).map (fun t => renderAccountMeta t.1 t.2.1 t.2.2)
  | IdlAccountItem.leaf name s m, ns => by
      simp [recurseAccountsItem, dfsLeavesItem]
  | IdlAccountItem.group name accs, ns => by
      simp only [recurseAccountsItem, dfsLeavesItem]
      exact recurseList_eq_dfs accs (ns ++ [name])

theorem recurseList_eq_dfs : ∀ (accs : List IdlAccountItem) (ns : List String),
    recurse_accounts accs ns =
      (dfsLeavesList accs ns).map (fun t => renderAccountMeta t.1 t.2.1 t.2.2)
  | [], ns => by simp [recurse_accounts, dfsLeavesList]
  | acc :: rest, ns => by
      simp only [recurse_accounts, dfsLeavesList, List.map_append]
      rw [recurseItem_eq_dfs acc ns, recurseList_eq_dfs rest ns]

end

mutual

theorem dfsItem_length : ∀ (acc : IdlAccountItem) (ns : List String),
    (dfsLeavesItem acc ns).length = leafCountItem acc
  | IdlAccountItem.leaf _ _ _, _ => rfl
  | IdlAccountItem.group name accs, ns => dfsList_length accs (ns ++ [name])

theorem dfsList_length : ∀ (accs : List IdlAccountItem) (ns : List String),
    (dfsLeavesList accs ns).length = leafCountList accs
  | [], _ => rfl
  | acc :: rest, ns => by
      simp only [dfsLeavesList, List.length_append, leafCountList]
      rw [dfsItem_length acc ns, dfsList_length rest ns]

end

/-! ## Claim theorems -/

/-- Claim C1 (code_bug evidence): `fetch_multiple` over a single absent
address raises TypeError instead of returning `[None]`: the loop body
appends None but then falls through to `info["owner"]`, subscripting
None. -/
theorem fetch_multiple_absent_raises :
    Counter.fetch_multiple (fun _ => none) [pk0] = Except.error PyError.typeError := rfl

/-- Claim C2 (code_bug evidence): for an instruction with an empty args
list the generated constructor takes no parameter at all (the accounts
parameter is dropped along with the args parameter), no layout
assignment is emitted, and the body still assigns
`encoded_args = layout.build({})` referencing the missing layout, so the
payload is not the bare discriminator. -/
theorem gen_ix_no_args_drops_accounts (α : Type) (pyTy : α → String)
    (layoutFor : α → String → String) (encodable : IdlField α → String)
    (sighash : String → String) (name : String) (accounts : List IdlAccountItem) :
    (gen_ix pyTy layoutFor encodable sighash ⟨name, [], accounts⟩).fnParams = [] ∧
    (gen_ix pyTy layoutFor encodable sighash ⟨name, [], accounts⟩).layoutAssignmentContainer = [] ∧
    (gen_ix pyTy layoutFor encodable sighash ⟨name, [], accounts⟩).fnBody.map PyAssign.lhs =
      ["keys", "identifier", "encoded_args", "data"] ∧
    ((gen_ix pyTy layoutFor encodable sighash ⟨name, [], accounts⟩).fnBody.map PyAssign.rhs)[2]? =
      some "layout.build(\x7b\x7d)" :=
  ⟨rfl, rfl, rfl, rfl⟩

/-- Claim C3 (code_bug evidence): with an empty log list `from_tx_error`
raises NameError (`first_match` unbound) instead of returning None; a
missing "logs" key and a non-matching non-empty log list do return
None. -/
theorem from_tx_error_empty_logs_raises :
    from_tx_error (some []) = Except.error PyError.nameError ∧
    from_tx_error none = Except.ok none ∧
    from_tx_error (some ["Transaction simulation failed"]) = Except.ok none :=
  ⟨rfl, rfl, rfl⟩

/-- Claim C4 (code_bug evidence): on a log line matching the pattern
with the program's own id and a code segment that does not parse as an
integer, `from_tx_error` raises TypeError (`int(code_raw(16))` calls the
captured string) instead of returning None. -/
theorem from_tx_error_parse_raises_typeError :
    from_tx_error (some ["Program " ++ TICTACTOE_PROGRAM_ID ++
      " failed: custom program error: zzz"]) = Except.error PyError.typeError := rfl

/-- Claim C5: fetching an account whose recorded owner differs from the
program id raises the owner-mismatch error, and never returns a decoded
record. -/
theorem fetch_owner_mismatch (conn : PublicKey → Option AccountInfo)
    (address : PublicKey) (info : AccountInfo)
    (hconn : conn address = some info) (howner : info.owner ≠ PROGRAM_ID_STR) :
    Counter.fetch conn address = Except.error PyError.ownerMismatch ∧
    ∀ r : Option Counter, Counter.fetch conn address ≠ Except.ok r := by
  have hf : Counter.fetch conn address = Except.error PyError.ownerMismatch := by
    unfold Counter.fetch
    rw [hconn]
    simp [howner]
  refine ⟨hf, fun r hr => ?_⟩
  rw [hf] at hr
  exact Except.noConfusion hr

theorem fetch_owner_mismatch_witness :
    Counter.fetch (fun _ => some mismatchInfo) pk0 = Except.error PyError.ownerMismatch ∧
    ∀ r : Option Counter, Counter.fetch (fun _ => some mismatchInfo) pk0 ≠ Except.ok r :=
  fetch_owner_mismatch (fun _ => some mismatchInfo) pk0 mismatchInfo rfl (by decide)

/-- Claim C6: decode fails with the invalid-discriminator error exactly
when the first 8 bytes differ from the account discriminator, and a
successful decode is exactly the struct-layout parse of the remaining
bytes. -/
theorem decode_discriminator_exact (data : List Nat) :
    (Counter.decode data = Except.error PyError.invalidDiscriminator ↔
      data.take 8 ≠ Counter.discriminator) ∧
    (∀ c : Counter, Counter.decode data = Except.ok c →
      Counter.layout_parse (data.drop 8) = some c) := by
  unfold Counter.decode ACCOUNT_DISCRIMINATOR_SIZE
  by_cases hd : data.take 8 = Counter.discriminator
  · rw [if_pos hd]
    constructor
    · constructor
      · intro h
        cases hp : Counter.layout_parse (data.drop 8) with
        | some c => rw [hp] at h; simp at h
        | none => rw [hp] at h; simp at h
      · intro hne
        exact absurd hd hne
    · intro c h
      cases hp : Counter.layout_parse (data.drop 8) with
      | some c2 =>
        rw [hp] at h
        simp only [Except.ok.injEq] at h
        rw [h]
      | none =>
        rw [hp] at h
        simp at h
  · rw [if_neg hd]
    refine ⟨⟨fun _ => hd, fun _ => rfl⟩, fun c h => ?_⟩
    simp at h

theorem decode_discriminator_exact_witness :
    Counter.layout_parse (decodeSample.drop 8) = some counterSample :=
  (decode_discriminator_exact decodeSample).2 counterSample rfl

/-- Claim C7: `from_code` dispatches to the custom table exactly for
codes at or above 6000 and to the framework table below 6000; 6000
resolves to the first custom variant, 5999 goes to the framework table
(where it is unrecognized), and unrecognized codes in either range give
None. -/
theorem from_code_boundary :
    (∀ code, 6000 ≤ code → from_code code = customFromCode code) ∧
    (∀ code, code < 6000 → from_code code = anchorFromCode code) ∧
    from_code 6000 = some (ErrVariant.custom 6000 "TileOutOfBounds") ∧
    from_code 5999 = anchorFromCode 5999 ∧ anchorFromCode 5999 = none ∧
    from_code 999999 = none ∧
    (∀ code, 6000 ≤ code →
      customErrorTable.find? (fun p => p.1 == code) = none → from_code code = none) ∧
    (∀ code, code < 6000 →
      anchorErrorTable.find? (fun p => p.1 == code) = none → from_code code = none) := by
  refine ⟨?_, ?_, by decide, by decide, by decide, by decide, ?_, ?_⟩
  · intro code h
    unfold from_code
    rw [if_pos h]
  · intro code h
    unfold from_code
    rw [if_neg (by omega)]
  · intro code h hf
    unfold from_code customFromCode
    rw [if_pos h, hf]
    rfl
  · intro code h hf
    unfold from_code anchorFromCode
    rw [if_neg (by omega), hf]
    rfl

theorem from_code_boundary_witness :
    from_code 7777 = customFromCode 7777 ∧ from_code 42 = anchorFromCode 42 ∧
    from_code 6500 = none ∧ from_code 4242 = none :=
  ⟨from_code_boundary.1 7777 (by decide),
   from_code_boundary.2.1 42 (by decide),
   from_code_boundary.2.2.2.2.2.2.1 6500 (by decide) (by decide),
   from_code_boundary.2.2.2.2.2.2.2 4242 (by decide) (by decide)⟩

/-- Claim C8: the account-meta flattening is the depth-first,
declaration-ordered leaf enumeration — one rendered (address, is_signer,
is_writable) entry per leaf, addressed by its nested path, none for
groups — and the §8 pool example flattens to poolAuthority, pool.vaultA,
pool.vaultB. -/
theorem recurse_accounts_dfs :
    (∀ (accs : List IdlAccountItem) (ns : List String),
      recurse_accounts accs ns =
        (dfsLeavesList accs ns).map (fun t => renderAccountMeta t.1 t.2.1 t.2.2)) ∧
    (∀ (accs : List IdlAccountItem) (ns : List String),
      (recurse_accounts accs ns).length = leafCountList accs) ∧
    recurse_accounts examplePoolTree [] =
      [ "AccountMeta(pubkey=accounts[\"poolAuthority\"], is_signer=False, is_writable=True)"
      , "AccountMeta(pubkey=accounts[\"pool\"][\"vaultA\"], is_signer=False, is_writable=True)"
      , "AccountMeta(pubkey=accounts[\"pool\"][\"vaultB\"], is_signer=False, is_writable=True)" ] := by
  refine ⟨recurseList_eq_dfs, ?_, by rfl⟩
  intro accs ns
  rw [recurseList_eq_dfs, List.length_map, dfsList_length]

/-- Claim C9: the plain key/value representation round-trips: from_json
(to_json r) = r, the address travelling as its canonical base58
string. -/
theorem counter_json_round_trip (c : Counter) :
    Counter.from_json (Counter.to_json c) = some c := by
  unfold Counter.from_json Counter.to_json PublicKey.ofString pkToString
  have hs : (String.mk (b58encode c.authority.bytes)).toList = b58encode c.authority.bytes := rfl
  rw [hs, b58_round_trip c.authority.bytes c.authority.bytesLt]
  show (mkPublicKey? c.authority.bytes).map (fun pk => { authority := pk, count := c.count }) = some c
  rw [mkPublicKey?_bytes]
  rfl

/-- Claim C10: on data shorter than 8 bytes the truncated prefix can
never equal the 8-byte discriminator, so decode raises the
invalid-discriminator error without attempting a layout parse. -/
theorem decode_short_data (data : List Nat) (h : data.length < 8) :
    Counter.decode data = Except.error PyError.invalidDiscriminator := by
  have hne : data.take 8 ≠ Counter.discriminator := by
    intro hcon
    have hlen := congrArg List.length hcon
    simp only [List.length_take, Counter.discriminator] at hlen
    simp at hlen
    omega
  unfold Counter.decode ACCOUNT_DISCRIMINATOR_SIZE
  exact if_neg hne

theorem decode_short_data_witness :
    Counter.decode [255, 176, 4] = Except.error PyError.invalidDiscriminator :=
  decode_short_data [255, 176, 4] (by decide)
